import Mathlib

/-!
Verification of the gostty terminal-animation program (`main.go`).

The Go source is shallowly embedded: Go strings are modelled as `List Char`
(every string involved is ASCII, so bytes and characters coincide), Go `int`
values as `Int` (or `Nat` where the source value is always non-negative),
Go maps as association lists, and the single `os.Stdout.Write` performed by
a render as an explicit `Option (List Char)` component of the result.
-/

namespace Gostty

/-- The ASCII escape character `\x1b`. -/
def escChar : Char := Char.ofNat 27

/-- `ColorStartTag = "<c>"` (main.go line 41). -/
def startTag : List Char := ['<', 'c', '>']

/-- `ColorEndTag = "</c>"` (main.go line 42). -/
def endTag : List Char := ['<', '/', 'c', '>']

/-- `ResetColor = "\x1b[0m"` (main.go line 43). -/
def resetSeq : List Char := [escChar, '[', '0', 'm']

/-- The default blue highlight `"\x1b[34m"` (main.go lines 69, 301, 322). -/
def defaultBlue : List Char := [escChar, '[', '3', '4', 'm']

/-- `strings.Index(hay, needle)` recast as a splitter: `some (pre, post)`
means `needle` occurs in `hay`, its leftmost occurrence is preceded by `pre`
and followed by `post` (so `hay = pre ++ needle ++ post`); `none` means no
occurrence.  Only called with the non-empty needles `startTag`/`endTag`. -/
def splitOnFirst (needle : List Char) : List Char → Option (List Char × List Char)
  | [] => none
  | c :: cs =>
    match needle.isPrefixOf (c :: cs) with
    | true => some ([], (c :: cs).drop needle.length)
    | false =>
      match splitOnFirst needle cs with
      | some (pre, post) => some (c :: pre, post)
      | none => none

/-- The leftmost occurrence of `startTag` in `startTag ++ x` is at index 0. -/
theorem splitOnFirst_startTag_self (x : List Char) :
    splitOnFirst startTag (startTag ++ x) = some ([], x) := by
  simp [startTag, splitOnFirst, List.isPrefixOf]

/-- The leftmost occurrence of `endTag` in `endTag ++ x` is at index 0. -/
theorem splitOnFirst_endTag_self (x : List Char) :
    splitOnFirst endTag (endTag ++ x) = some ([], x) := by
  simp [endTag, splitOnFirst, List.isPrefixOf]

/-- `"<c>"` does not overlap itself, so appending material that begins with
`startTag` to a list that does not start with `startTag` cannot create an
occurrence of `startTag` at index 0. -/
theorem startTag_no_straddle (c : Char) (cs x : List Char)
    (h : startTag.isPrefixOf (c :: cs) = false) :
    startTag.isPrefixOf (c :: (cs ++ (startTag ++ x))) = false := by
  match cs with
  | [] =>
    have hcl : ('c' == '<') = false := by decide
    simp [startTag, List.isPrefixOf, hcl]
  | [b] =>
    have hgl : ('>' == '<') = false := by decide
    simp [startTag, List.isPrefixOf, hgl]
  | b :: d :: rest =>
    simp [startTag, List.isPrefixOf] at h ⊢
    exact h

/-- `"</c>"` does not overlap itself, so appending material that begins with
`endTag` to a list that does not start with `endTag` cannot create an
occurrence of `endTag` at index 0. -/
theorem endTag_no_straddle (c : Char) (cs x : List Char)
    (h : endTag.isPrefixOf (c :: cs) = false) :
    endTag.isPrefixOf (c :: (cs ++ (endTag ++ x))) = false := by
  match cs with
  | [] =>
    have h1 : ('/' == '<') = false := by decide
    simp [endTag, List.isPrefixOf, h1]
  | [b] =>
    have h1 : ('c' == '<') = false := by decide
    simp [endTag, List.isPrefixOf, h1]
  | [b, d] =>
    have h1 : ('>' == '<') = false := by decide
    simp [endTag, List.isPrefixOf, h1]
  | b :: d :: e :: rest =>
    simp [endTag, List.isPrefixOf] at h ⊢
    exact h

/-- If `needle` does not occur in `p`, then in `p ++ needle ++ x` its
leftmost occurrence is exactly at position `p.length`, provided `needle`
cannot straddle the boundary. -/
theorem splitOnFirst_append_of_none (needle : List Char)
    (hself : ∀ x, splitOnFirst needle (needle ++ x) = some ([], x))
    (hstr : ∀ c cs x, needle.isPrefixOf (c :: cs) = false →
      needle.isPrefixOf (c :: (cs ++ (needle ++ x))) = false) :
    ∀ (p x : List Char), splitOnFirst needle p = none →
      splitOnFirst needle (p ++ (needle ++ x)) = some (p, x) := by
  intro p
  induction p with
  | nil =>
    intro x _
    simpa using hself x
  | cons c cs ih =>
    intro x hp
    cases hb : needle.isPrefixOf (c :: cs) with
    | true => simp [splitOnFirst, hb] at hp
    | false =>
      have hrec : splitOnFirst needle cs = none := by
        cases hr : splitOnFirst needle cs with
        | some pq =>
          obtain ⟨p1, p2⟩ := pq
          simp [splitOnFirst, hb, hr] at hp
        | none => rfl
      have hstep := hstr c cs x hb
      have hih := ih x hrec
      simp [splitOnFirst, List.cons_append, hstep, hih]

/-- Leftmost occurrence of `startTag` after a tag-free block `p`. -/
theorem splitOnFirst_startTag_append (p x : List Char)
    (hp : splitOnFirst startTag p = none) :
    splitOnFirst startTag (p ++ (startTag ++ x)) = some (p, x) :=
  splitOnFirst_append_of_none startTag splitOnFirst_startTag_self
    startTag_no_straddle p x hp

/-- Leftmost occurrence of `endTag` after a tag-free block `m`. -/
theorem splitOnFirst_endTag_append (m x : List Char)
    (hm : splitOnFirst endTag m = none) :
    splitOnFirst endTag (m ++ (endTag ++ x)) = some (m, x) :=
  splitOnFirst_append_of_none endTag splitOnFirst_endTag_self
    endTag_no_straddle m x hm

/-- The scanning loop of `Animation.processColorCodes` (main.go lines
105-146).  The loop state `remaining = line[currentIndex:]`; all slicing in
the source is relative to `currentIndex`, so one iteration is: find
`startTag` (emitting everything if absent), emit the text `pre` before it,
find `endTag` in the rest (on failure emit `line[currentIndex:]`, i.e. the
whole `remaining` - even though `pre` was already emitted), otherwise emit
`color ++ mid ++ resetSeq` and continue after the end tag.  Each iteration
removes at least the two tags (7 characters) from `remaining` and consumes
one unit of fuel, so fuel `line.length` is never exhausted. -/
def processLoop (color : List Char) : Nat → List Char → List Char
  | 0, remaining => remaining
  | fuel + 1, remaining =>
    match splitOnFirst startTag remaining with
    | none => remaining
    | some (pre, rest) =>
      match splitOnFirst endTag rest with
      | none => pre ++ remaining
      | some (mid, rest2) =>
        pre ++ (color ++ (mid ++ (resetSeq ++ processLoop color fuel rest2)))

/-- `Animation.processColorCodes` (main.go lines 105-146) with highlight
color `color`. -/
def processColorCodes (color line : List Char) : List Char :=
  processLoop color line.length line

/-- A line built from well-formed markup: for each `(p, m)` pair in `segs`
the line contains the plain text `p`, then `<c>`, the highlighted text `m`,
and `</c>`; after the last pair comes the plain text `tail`. -/
def rawOfSegs : List (List Char × List Char) → List Char → List Char
  | [], tail => tail
  | (p, m) :: rest, tail => p ++ (startTag ++ (m ++ (endTag ++ rawOfSegs rest tail)))

/-- The output the specification prescribes for a well-formed line: text
outside marker pairs verbatim, each pair replaced by the resolved color,
the enclosed text, and the reset sequence. -/
def expectedOfSegs (color : List Char) :
    List (List Char × List Char) → List Char → List Char
  | [], tail => tail
  | (p, m) :: rest, tail =>
      p ++ (color ++ (m ++ (resetSeq ++ expectedOfSegs color rest tail)))

/-- Each marker pair contributes at least one character to the raw line, so
the number of segments never exceeds the line length (the fuel bound). -/
theorem segs_length_le_raw_length :
    ∀ (segs : List (List Char × List Char)) (tail : List Char),
      segs.length ≤ (rawOfSegs segs tail).length := by
  intro segs
  induction segs with
  | nil => intro tail; simp
  | cons pm rest ih =>
    intro tail
    obtain ⟨p, m⟩ := pm
    have := ih tail
    simp [rawOfSegs, startTag, endTag]
    omega

/-- Main loop invariant for well-formed lines: with enough fuel, the loop
emits plain blocks verbatim and replaces each marker pair by
`color ++ text ++ resetSeq`. -/
theorem processLoop_segs (color : List Char) (tail : List Char)
    (htail : splitOnFirst startTag tail = none) :
    ∀ (segs : List (List Char × List Char)) (fuel : Nat),
      (∀ pm ∈ segs, splitOnFirst startTag pm.1 = none ∧
        splitOnFirst endTag pm.2 = none) →
      segs.length ≤ fuel →
      processLoop color fuel (rawOfSegs segs tail) = expectedOfSegs color segs tail := by
  intro segs
  induction segs with
  | nil =>
    intro fuel _ _
    cases fuel with
    | zero => simp [processLoop, rawOfSegs, expectedOfSegs]
    | succ f => simp [processLoop, rawOfSegs, expectedOfSegs, htail]
  | cons pm rest ih =>
    intro fuel hseg hlen
    obtain ⟨p, m⟩ := pm
    cases fuel with
    | zero => simp at hlen
    | succ f =>
      have hp : splitOnFirst startTag p = none := (hseg (p, m) (by simp)).1
      have hm : splitOnFirst endTag m = none := (hseg (p, m) (by simp)).2
      have e1 := splitOnFirst_startTag_append p
        (m ++ (endTag ++ rawOfSegs rest tail)) hp
      have e2 := splitOnFirst_endTag_append m (rawOfSegs rest tail) hm
      have hrest := ih f (fun q hq => hseg q (by simp [hq])) (by simpa using hlen)
      simp [rawOfSegs, processLoop, e1, e2, expectedOfSegs, hrest]

/-- Claim C3: on a line in which every `<c>` is followed by a matching
`</c>` (presented as plain/highlight segments whose plain parts contain no
`<c>` and whose highlighted parts contain no `</c>`), `processColorCodes`
copies all text outside marker pairs verbatim and replaces each pair by the
resolved color, the enclosed text, and the reset sequence; a line with no
markup (`segs = []`) is returned unchanged. -/
theorem processColorCodes_wellFormed (color : List Char)
    (segs : List (List Char × List Char)) (tail : List Char)
    (hsegs : ∀ pm ∈ segs, splitOnFirst startTag pm.1 = none ∧
      splitOnFirst endTag pm.2 = none)
    (htail : splitOnFirst startTag tail = none) :
    processColorCodes color (rawOfSegs segs tail) = expectedOfSegs color segs tail := by
  unfold processColorCodes
  exact processLoop_segs color tail htail segs _ hsegs
    (segs_length_le_raw_length segs tail)

/-- Witness for C3: `"a<c>B</c>c"` with the default blue color becomes
`"a" ++ blue ++ "B" ++ reset ++ "c"`, and `"plain"` is unchanged. -/
theorem processColorCodes_wellFormed_witness :
    rawOfSegs [(['a'], ['B'])] ['c'] = ['a', '<', 'c', '>', 'B', '<', '/', 'c', '>', 'c'] ∧
    processColorCodes defaultBlue (rawOfSegs [(['a'], ['B'])] ['c'])
        = ['a'] ++ (defaultBlue ++ (['B'] ++ (resetSeq ++ ['c']))) ∧
    processColorCodes defaultBlue (rawOfSegs [] ['p', 'l', 'a', 'i', 'n'])
        = ['p', 'l', 'a', 'i', 'n'] := by
  refine ⟨by decide, ?_, ?_⟩
  · have h := processColorCodes_wellFormed defaultBlue [(['a'], ['B'])] ['c']
      (by decide) (by decide)
    simpa [expectedOfSegs] using h
  · have h := processColorCodes_wellFormed defaultBlue [] ['p', 'l', 'a', 'i', 'n']
      (by decide) (by decide)
    simpa [expectedOfSegs] using h

/-- Claim C1: on a line whose start marker has no matching end marker the
code does NOT return the line unchanged.  `processColorCodes` first emits
the text before the unmatched `<c>` (line 123 of main.go) and then, in the
malformed-tag branch, emits `line[currentIndex:]` again (line 131), so the
prefix before the marker is duplicated: `"a<c>B"` becomes `"aa<c>B"`,
not `"a<c>B"`. -/
theorem processColorCodes_unmatched_start_duplicates :
    processColorCodes defaultBlue ['a', '<', 'c', '>', 'B']
        = ['a', 'a', '<', 'c', '>', 'B'] ∧
    ['a', 'a', '<', 'c', '>', 'B'] ≠ ['a', '<', 'c', '>', 'B'] := by
  constructor
  · decide
  · decide

/-- `colorMap` (main.go lines 47-64): the 16 named colors, 8 standard and
8 bright, each mapped to its ANSI foreground escape sequence. -/
def colorMap : List (List Char × List Char) :=
  [ (['b', 'l', 'a', 'c', 'k'], [escChar, '[', '3', '0', 'm']),
    (['r', 'e', 'd'], [escChar, '[', '3', '1', 'm']),
    (['g', 'r', 'e', 'e', 'n'], [escChar, '[', '3', '2', 'm']),
    (['y', 'e', 'l', 'l', 'o', 'w'], [escChar, '[', '3', '3', 'm']),
    (['b', 'l', 'u', 'e'], [escChar, '[', '3', '4', 'm']),
    (['m', 'a', 'g', 'e', 'n', 't', 'a'], [escChar, '[', '3', '5', 'm']),
    (['c', 'y', 'a', 'n'], [escChar, '[', '3', '6', 'm']),
    (['w', 'h', 'i', 't', 'e'], [escChar, '[', '3', '7', 'm']),
    (['b', 'r', 'i', 'g', 'h', 't', 'b', 'l', 'a', 'c', 'k'],
      [escChar, '[', '9', '0', 'm']),
    (['b', 'r', 'i', 'g', 'h', 't', 'r', 'e', 'd'], [escChar, '[', '9', '1', 'm']),
    (['b', 'r', 'i', 'g', 'h', 't', 'g', 'r', 'e', 'e', 'n'],
      [escChar, '[', '9', '2', 'm']),
    (['b', 'r', 'i', 'g', 'h', 't', 'y', 'e', 'l', 'l', 'o', 'w'],
      [escChar, '[', '9', '3', 'm']),
    (['b', 'r', 'i', 'g', 'h', 't', 'b', 'l', 'u', 'e'], [escChar, '[', '9', '4', 'm']),
    (['b', 'r', 'i', 'g', 'h', 't', 'm', 'a', 'g', 'e', 'n', 't', 'a'],
      [escChar, '[', '9', '5', 'm']),
    (['b', 'r', 'i', 'g', 'h', 't', 'c', 'y', 'a', 'n'], [escChar, '[', '9', '6', 'm']),
    (['b', 'r', 'i', 'g', 'h', 't', 'w', 'h', 'i', 't', 'e'],
      [escChar, '[', '9', '7', 'm']) ]

/-- `strings.HasPrefix(color, "\x1b[")` (main.go line 315). -/
def hasEscHead (color : List Char) : Bool :=
  [escChar, '['].isPrefixOf color

/-- Go regexp `^\d+$` (main.go line 314); RE2 `\d` is exactly `[0-9]`. -/
def isDigits (color : List Char) : Bool :=
  !color.isEmpty && color.all Char.isDigit

/-- `strings.ToLower` (main.go line 319), restricted to ASCII case mapping
(the map keys and every token considered here are ASCII). -/
def toLowerChars (color : List Char) : List Char :=
  color.map Char.toLower

/-- The `--color`/`-c` resolution branch of `ParseArgs` (main.go lines
311-323): raw escape sequences pass through, digit strings are wrapped as
`"\x1b[" + digits + "m"`, named colors are looked up case-insensitively,
and everything else falls back to the default blue. -/
def resolveColor (color : List Char) : List Char :=
  if hasEscHead color then color
  else if isDigits color then escChar :: ('[' :: (color ++ ['m']))
  else
    match colorMap.lookup (toLowerChars color) with
    | some ansiColor => ansiColor
    | none => defaultBlue

/-- An association-list lookup misses when the key differs from every
stored key. -/
theorem lookup_eq_none_of_ne (k : List Char) :
    ∀ (l : List (List Char × List Char)), (∀ p ∈ l, k ≠ p.1) → l.lookup k = none := by
  intro l
  induction l with
  | nil => intro _; rfl
  | cons q rest ih =>
    intro h
    obtain ⟨a, b⟩ := q
    have hk : k ≠ a := h (a, b) (by simp)
    have hb : (k == a) = false := by simpa using hk
    simp only [List.lookup, hb]
    exact ih fun p hp => h p (by simp [hp])

/-- Claim C7: any token that is not a raw escape sequence, not purely
numeric, and not (after case folding) one of the 16 named colors - the
empty string and strings such as "notacolor" or "12ab" included - resolves
to the default blue escape sequence `"\x1b[34m"`; `resolveColor` is a total
function and never surfaces an error. -/
theorem resolveColor_unrecognized (color : List Char)
    (h1 : hasEscHead color = false)
    (h2 : isDigits color = false)
    (h3 : ∀ p ∈ colorMap, toLowerChars color ≠ p.1) :
    resolveColor color = defaultBlue := by
  have hl := lookup_eq_none_of_ne (toLowerChars color) colorMap h3
  simp [resolveColor, h1, h2, hl]

/-- Witness for C7: "notacolor", "" and "12ab" all resolve to blue. -/
theorem resolveColor_unrecognized_witness :
    resolveColor ['n', 'o', 't', 'a', 'c', 'o', 'l', 'o', 'r'] = defaultBlue ∧
    resolveColor [] = defaultBlue ∧
    resolveColor ['1', '2', 'a', 'b'] = defaultBlue :=
  ⟨resolveColor_unrecognized _ (by decide) (by decide) (by decide),
   resolveColor_unrecognized _ (by decide) (by decide) (by decide),
   resolveColor_unrecognized _ (by decide) (by decide) (by decide)⟩

/-- Claim C8: every token consisting purely of decimal digits resolves to
`"\x1b[" ++ token ++ "m"` with the digits used verbatim as the parameter
and no bounds validation. -/
theorem resolveColor_numeric (color : List Char) (h : isDigits color = true) :
    resolveColor color = escChar :: ('[' :: (color ++ ['m'])) := by
  have hesc : hasEscHead color = false := by
    cases color with
    | nil => simp [isDigits] at h
    | cons c cs =>
      have hc : c.isDigit = true := by
        simp [isDigits] at h
        exact h.1
      have hne : (escChar == c) = false := by
        cases hb : escChar == c with
        | false => rfl
        | true =>
          have heq : escChar = c := eq_of_beq hb
          rw [← heq] at hc
          exact absurd hc (by decide)
      simp [hasEscHead, List.isPrefixOf, hne]
  simp [resolveColor, hesc, h]

/-- Witness for C8: the out-of-range token "999" becomes `"\x1b[999m"`. -/
theorem resolveColor_numeric_witness :
    resolveColor ['9', '9', '9'] = escChar :: ('[' :: (['9', '9', '9'] ++ ['m'])) :=
  resolveColor_numeric _ (by decide)

/-- `MicrosPerFrame = 35000` (main.go line 37). -/
def MicrosPerFrame : Nat := 35000

/-- `FrameDelay = MicrosPerFrame / 1000` (main.go line 38): the tick
interval in milliseconds. -/
def FrameDelay : Nat := MicrosPerFrame / 1000

/-- Frame selection in `runAnimation` (main.go line 379):
`int(effectiveElapsed.Milliseconds()/FrameDelay) % animation.FrameCount()`.
The elapsed wall-clock time since start is non-negative, so Go's truncating
`int64` division is floor division and the milliseconds fit in `Nat`. -/
def tickFrameIndex (elapsedMs frameCount : Nat) : Nat :=
  elapsedMs / FrameDelay % frameCount

/-- Claim C4: the frame index rendered on a tick equals
`floor(elapsedMilliseconds / 35) mod frameCount`; in particular with 4
frames, 140 ms and 141 ms both select index 0 and 176 ms selects
index 1. -/
theorem tickFrameIndex_spec :
    (∀ (elapsedMs frameCount : Nat),
      tickFrameIndex elapsedMs frameCount = elapsedMs / 35 % frameCount) ∧
    tickFrameIndex 140 4 = 0 ∧ tickFrameIndex 141 4 = 0 ∧ tickFrameIndex 176 4 = 1 :=
  ⟨fun _ _ => rfl, by decide, by decide, by decide⟩

/-- `Frame` (main.go lines 22-24): the pre-processed lines of one frame. -/
structure Frame where
  lines : List (List Char)

/-- `Animation` (main.go lines 27-31). -/
structure Animation where
  frames : List Frame
  highlightColor : List Char
  frameCount : Nat

/-- `Animation.Initialize` (main.go lines 79-92): pre-processes every line
of every frame with the highlight color and records the frame count. -/
def Animation.Initialize (a : Animation)
    (animationData : List (List (List Char))) : Animation :=
  { a with
    frames := animationData.map fun frameLines =>
      ⟨frameLines.map (processColorCodes a.highlightColor)⟩,
    frameCount := animationData.length }

/-- `Animation.GetFrameLines` (main.go lines 149-154): Go returns `nil`
(here `[]`) for an index outside `[0, len(frames))`, otherwise the stored
lines of that frame. -/
def Animation.GetFrameLines (a : Animation) (index : Int) : List (List Char) :=
  if index < 0 ∨ (a.frames.length : Int) ≤ index then []
  else (a.frames.getD index.toNat ⟨[]⟩).lines

/-- `ImageWidth = 77` (main.go line 35). -/
def ImageWidth : Int := 77

/-- `ImageHeight = 41` (main.go line 36). -/
def ImageHeight : Int := 41

/-- `ClearAndHome = "\x1b[2J\x1b[H"` (main.go line 39). -/
def ClearAndHome : List Char :=
  [escChar, '[', '2', 'J', escChar, '[', 'H']

/-- `Terminal` (main.go lines 162-172).  The Go `map[int]string` caches are
modelled as association lists (only absent keys are ever inserted, so
lookup semantics agree). -/
structure Terminal where
  width : Int
  height : Int
  shouldRender : Bool
  lastFrameIndex : Int
  lastVerticalPadding : Int
  lastHorizontalPadding : Int
  paddingCache : List (Int × List Char)
  newlineCache : List (Int × List Char)
  outputBuffer : List Char

/-- `NewTerminal` (main.go lines 175-193), as a function of the queried
terminal size (`term.GetSize` reports `(0, 0)` when the query fails): a
zero dimension falls back to 80 columns / 24 rows; the remaining fields get
their literal initializers or Go zero values. -/
def NewTerminal (queriedWidth queriedHeight : Int) : Terminal :=
  { width := if queriedWidth = 0 then 80 else queriedWidth,
    height := if queriedHeight = 0 then 24 else queriedHeight,
    shouldRender := true,
    lastFrameIndex := -1,
    lastVerticalPadding := 0,
    lastHorizontalPadding := 0,
    paddingCache := [],
    newlineCache := [],
    outputBuffer := [] }

/-- `Terminal.UpdateSize` (main.go lines 229-239), as a function of the
queried size: on any difference the queried geometry is stored verbatim
(there is no zero fallback here), both caches are cleared, and a redraw is
forced. -/
def Terminal.UpdateSize (t : Terminal) (queriedWidth queriedHeight : Int) : Terminal :=
  if queriedWidth ≠ t.width ∨ queriedHeight ≠ t.height then
    { t with width := queriedWidth, height := queriedHeight,
             shouldRender := true, paddingCache := [], newlineCache := [] }
  else t

/-- `Terminal.GetPaddingString` (main.go lines 196-203): memoized
`strings.Repeat(" ", width)`. -/
def Terminal.GetPaddingString (t : Terminal) (width : Int) : List Char × Terminal :=
  match t.paddingCache.lookup width with
  | some str => (str, t)
  | none =>
    (List.replicate width.toNat ' ',
     { t with paddingCache :=
        (width, List.replicate width.toNat ' ') :: t.paddingCache })

/-- `Terminal.GetNewlineString` (main.go lines 206-213): memoized
`strings.Repeat("\n", count)`. -/
def Terminal.GetNewlineString (t : Terminal) (count : Int) : List Char × Terminal :=
  match t.newlineCache.lookup count with
  | some str => (str, t)
  | none =>
    (List.replicate count.toNat '\n',
     { t with newlineCache :=
        (count, List.replicate count.toNat '\n') :: t.newlineCache })

/-- `max(0, (t.height-ImageHeight)/2)` (main.go line 243).  Go's `/` on
`int` truncates toward zero, which is `Int.tdiv`. -/
def verticalPadding (height : Int) : Int :=
  max 0 ((height - ImageHeight).tdiv 2)

/-- `max(0, (t.width-ImageWidth)/2)` (main.go line 244). -/
def horizontalPadding (width : Int) : Int :=
  max 0 ((width - ImageWidth).tdiv 2)

/-- The per-line loop of `RenderFrame` (main.go lines 278-284): each line
is preceded by the horizontal padding string, and consecutive lines are
joined with a single newline (no trailing newline after the last line). -/
def renderLines (padding : List Char) : List (List Char) → List Char
  | [] => []
  | [line] => padding ++ line
  | line :: rest => padding ++ (line ++ ('\n' :: renderLines padding rest))

/-- The padding bookkeeping at the top of `RenderFrame` (main.go lines
243-254): recompute both paddings from the current geometry and, when
either differs from the cached value, store them and force a render. -/
def applyPaddingState (t : Terminal) : Terminal :=
  if verticalPadding t.height ≠ t.lastVerticalPadding ∨
      horizontalPadding t.width ≠ t.lastHorizontalPadding then
    { t with lastVerticalPadding := verticalPadding t.height,
             lastHorizontalPadding := horizontalPadding t.width,
             shouldRender := true }
  else t

/-- `Terminal.RenderFrame` (main.go lines 242-290).  Returns the updated
terminal state together with the single `os.Stdout.Write` the call
performs (`none` when the redraw is suppressed at line 257; in the render
path the buffer starts with `ClearAndHome`, so it is never empty and
`FlushBuffer` always writes exactly once and resets the buffer). -/
def Terminal.RenderFrame (t : Terminal) (a : Animation) (frameIndex : Int) :
    Terminal × Option (List Char) :=
  let t1 := applyPaddingState t
  if t1.shouldRender = false ∧ frameIndex = t1.lastFrameIndex then (t1, none)
  else
    let g1 := t1.GetPaddingString (horizontalPadding t.width)
    let g2 := g1.2.GetNewlineString (verticalPadding t.height)
    let buffer := ClearAndHome
      ++ ((if 0 < verticalPadding t.height then g2.1 else [])
        ++ renderLines g1.1 (a.GetFrameLines frameIndex))
    ({ g2.2 with shouldRender := false, lastFrameIndex := frameIndex,
                 outputBuffer := [] },
     some buffer)

@[simp] theorem getPaddingString_snd_width (t : Terminal) (w : Int) :
    (t.GetPaddingString w).2.width = t.width := by
  cases h : t.paddingCache.lookup w <;> simp [Terminal.GetPaddingString, h]

@[simp] theorem getPaddingString_snd_height (t : Terminal) (w : Int) :
    (t.GetPaddingString w).2.height = t.height := by
  cases h : t.paddingCache.lookup w <;> simp [Terminal.GetPaddingString, h]

@[simp] theorem getPaddingString_snd_lastVerticalPadding (t : Terminal) (w : Int) :
    (t.GetPaddingString w).2.lastVerticalPadding = t.lastVerticalPadding := by
  cases h : t.paddingCache.lookup w <;> simp [Terminal.GetPaddingString, h]

@[simp] theorem getPaddingString_snd_lastHorizontalPadding (t : Terminal) (w : Int) :
    (t.GetPaddingString w).2.lastHorizontalPadding = t.lastHorizontalPadding := by
  cases h : t.paddingCache.lookup w <;> simp [Terminal.GetPaddingString, h]

@[simp] theorem getNewlineString_snd_width (t : Terminal) (c : Int) :
    (t.GetNewlineString c).2.width = t.width := by
  cases h : t.newlineCache.lookup c <;> simp [Terminal.GetNewlineString, h]

@[simp] theorem getNewlineString_snd_height (t : Terminal) (c : Int) :
    (t.GetNewlineString c).2.height = t.height := by
  cases h : t.newlineCache.lookup c <;> simp [Terminal.GetNewlineString, h]

@[simp] theorem getNewlineString_snd_lastVerticalPadding (t : Terminal) (c : Int) :
    (t.GetNewlineString c).2.lastVerticalPadding = t.lastVerticalPadding := by
  cases h : t.newlineCache.lookup c <;> simp [Terminal.GetNewlineString, h]

@[simp] theorem getNewlineString_snd_lastHorizontalPadding (t : Terminal) (c : Int) :
    (t.GetNewlineString c).2.lastHorizontalPadding = t.lastHorizontalPadding := by
  cases h : t.newlineCache.lookup c <;> simp [Terminal.GetNewlineString, h]

@[simp] theorem applyPaddingState_width (t : Terminal) :
    (applyPaddingState t).width = t.width := by
  by_cases hc : verticalPadding t.height ≠ t.lastVerticalPadding ∨
      horizontalPadding t.width ≠ t.lastHorizontalPadding <;>
    simp [applyPaddingState, hc]

@[simp] theorem applyPaddingState_height (t : Terminal) :
    (applyPaddingState t).height = t.height := by
  by_cases hc : verticalPadding t.height ≠ t.lastVerticalPadding ∨
      horizontalPadding t.width ≠ t.lastHorizontalPadding <;>
    simp [applyPaddingState, hc]

@[simp] theorem applyPaddingState_lastFrameIndex (t : Terminal) :
    (applyPaddingState t).lastFrameIndex = t.lastFrameIndex := by
  by_cases hc : verticalPadding t.height ≠ t.lastVerticalPadding ∨
      horizontalPadding t.width ≠ t.lastHorizontalPadding <;>
    simp [applyPaddingState, hc]

@[simp] theorem applyPaddingState_lastVerticalPadding (t : Terminal) :
    (applyPaddingState t).lastVerticalPadding = verticalPadding t.height := by
  by_cases hc : verticalPadding t.height ≠ t.lastVerticalPadding ∨
      horizontalPadding t.width ≠ t.lastHorizontalPadding
  · simp [applyPaddingState, hc]
  · push_neg at hc
    simp [applyPaddingState, hc.1, hc.2]

@[simp] theorem applyPaddingState_lastHorizontalPadding (t : Terminal) :
    (applyPaddingState t).lastHorizontalPadding = horizontalPadding t.width := by
  by_cases hc : verticalPadding t.height ≠ t.lastVerticalPadding ∨
      horizontalPadding t.width ≠ t.lastHorizontalPadding
  · simp [applyPaddingState, hc]
  · push_neg at hc
    simp [applyPaddingState, hc.1, hc.2]

theorem applyPaddingState_shouldRender_of_true (t : Terminal)
    (h : t.shouldRender = true) : (applyPaddingState t).shouldRender = true := by
  by_cases hc : verticalPadding t.height ≠ t.lastVerticalPadding ∨
      horizontalPadding t.width ≠ t.lastHorizontalPadding <;>
    simp [applyPaddingState, hc, h]

/-- Post-state of a `RenderFrame` call: the geometry is untouched, the
cached paddings match the current geometry, the render flag is cleared;
the call is suppressed only when the requested index is the last rendered
one, a performed write records the index, and a pending render flag always
forces a write. -/
theorem renderFrame_post (t : Terminal) (a : Animation) (fi : Int) :
    (t.RenderFrame a fi).1.width = t.width ∧
    (t.RenderFrame a fi).1.height = t.height ∧
    (t.RenderFrame a fi).1.lastVerticalPadding = verticalPadding t.height ∧
    (t.RenderFrame a fi).1.lastHorizontalPadding = horizontalPadding t.width ∧
    (t.RenderFrame a fi).1.shouldRender = false ∧
    ((t.RenderFrame a fi).2 = none →
      ((t.RenderFrame a fi).1 = applyPaddingState t ∧ fi = t.lastFrameIndex)) ∧
    ((t.RenderFrame a fi).2 ≠ none → (t.RenderFrame a fi).1.lastFrameIndex = fi) ∧
    (t.shouldRender = true → (t.RenderFrame a fi).2 ≠ none) := by
  by_cases hc : (applyPaddingState t).shouldRender = false ∧
      fi = (applyPaddingState t).lastFrameIndex
  · have hr : t.RenderFrame a fi = (applyPaddingState t, none) := by
      simp only [Terminal.RenderFrame]
      rw [if_pos hc]
    rw [hr]
    refine ⟨by simp, by simp, by simp, by simp, hc.1, fun _ => ⟨rfl, ?_⟩, by simp, ?_⟩
    · simpa using hc.2
    · intro ht
      have h2 := applyPaddingState_shouldRender_of_true t ht
      rw [hc.1] at h2
      exact absurd h2 (by decide)
  · have hr : t.RenderFrame a fi =
        ({ ((applyPaddingState t).GetPaddingString
              (horizontalPadding t.width)).2.GetNewlineString
              (verticalPadding t.height) |>.2 with
            shouldRender := false, lastFrameIndex := fi, outputBuffer := [] },
         some (ClearAndHome
          ++ ((if 0 < verticalPadding t.height then
                (((applyPaddingState t).GetPaddingString
                    (horizontalPadding t.width)).2.GetNewlineString
                    (verticalPadding t.height)).1
              else [])
            ++ renderLines ((applyPaddingState t).GetPaddingString
                (horizontalPadding t.width)).1 (a.GetFrameLines fi)))) := by
      simp only [Terminal.RenderFrame]
      rw [if_neg hc]
    rw [hr]
    refine ⟨by simp, by simp, by simp, by simp, rfl, by simp, fun _ => rfl, fun _ => by simp⟩

/-- Clamped at zero, Go's truncating halving agrees with floor halving. -/
theorem max_zero_tdiv_of_neg (a : Int) (ha : a < 0) : max 0 (a.tdiv 2) = 0 := by
  have h2 := Int.tdiv_nonneg (a := -a) (b := 2) (by linarith) (by norm_num)
  rw [Int.neg_tdiv] at h2
  exact max_eq_left (by linarith)

theorem max_zero_tdiv_eq_fdiv (a : Int) : max 0 (a.tdiv 2) = max 0 (a.fdiv 2) := by
  rcases le_or_lt 0 a with ha | ha
  · rw [Int.tdiv_eq_ediv ha (by norm_num), Int.fdiv_eq_ediv a (by norm_num)]
  · rw [max_zero_tdiv_of_neg a ha, Int.fdiv_eq_ediv a (by norm_num)]
    have h2 := Int.ediv_neg' ha (b := 2) (by norm_num)
    rw [max_eq_left (by linarith)]

/-- A call whose frame index is the last rendered one, made with the render
flag clear and cached paddings matching the current geometry, is suppressed
and leaves the state untouched (main.go lines 257-259). -/
theorem renderFrame_skips (t : Terminal) (a : Animation) (fi : Int)
    (h1 : t.shouldRender = false) (h2 : t.lastFrameIndex = fi)
    (h3 : t.lastVerticalPadding = verticalPadding t.height)
    (h4 : t.lastHorizontalPadding = horizontalPadding t.width) :
    t.RenderFrame a fi = (t, none) := by
  have haps : applyPaddingState t = t := by
    unfold applyPaddingState
    rw [if_neg]
    push_neg
    exact ⟨h3.symm, h4.symm⟩
  simp only [Terminal.RenderFrame, haps]
  rw [if_pos ⟨h1, h2.symm⟩]

/-- Claim C9: `RenderFrame` computes vertical padding
`max(0, (height - 41) / 2)` and horizontal padding `max(0, (width - 77) / 2)`
with integer floor division (Go's truncating division agrees once clamped
at zero), and stores them; a terminal smaller than 77x41 gets zero
padding. -/
theorem renderFrame_padding_formula (t : Terminal) (a : Animation) (fi : Int)
    (w h : Int) :
    (t.RenderFrame a fi).1.lastVerticalPadding = verticalPadding t.height ∧
    (t.RenderFrame a fi).1.lastHorizontalPadding = horizontalPadding t.width ∧
    verticalPadding h = max 0 ((h - 41).fdiv 2) ∧
    horizontalPadding w = max 0 ((w - 77).fdiv 2) ∧
    (h < 41 → verticalPadding h = 0) ∧
    (w < 77 → horizontalPadding w = 0) := by
  obtain ⟨-, -, hv, hh, -, -, -, -⟩ := renderFrame_post t a fi
  refine ⟨hv, hh, ?_, ?_, ?_, ?_⟩
  · rw [verticalPadding, ImageHeight, max_zero_tdiv_eq_fdiv]
  · rw [horizontalPadding, ImageWidth, max_zero_tdiv_eq_fdiv]
  · intro hsmall
    rw [verticalPadding, ImageHeight, max_zero_tdiv_of_neg _ (by linarith)]
  · intro hsmall
    rw [horizontalPadding, ImageWidth, max_zero_tdiv_of_neg _ (by linarith)]

/-- Witness for C9: a 76x40 terminal is smaller than the 77x41 image in
both dimensions, and both paddings are zero. -/
theorem renderFrame_padding_formula_witness :
    verticalPadding 40 = 0 ∧ horizontalPadding 76 = 0 :=
  ⟨(renderFrame_padding_formula (NewTerminal 80 24) ⟨[], defaultBlue, 0⟩ 0 76 40).2.2.2.2.1
      (by decide),
   (renderFrame_padding_formula (NewTerminal 80 24) ⟨[], defaultBlue, 0⟩ 0 76 40).2.2.2.2.2
      (by decide)⟩

/-- Counterexample to claim C2: the per-tick size refresh `UpdateSize` has
no zero fallback - after a refresh whose query reports `(0, 0)` the stored
geometry is 0x0, not 80x24. -/
theorem updateSize_zero_stores_zero :
    ((NewTerminal 80 24).UpdateSize 0 0).width = 0 ∧
    ((NewTerminal 80 24).UpdateSize 0 0).height = 0 ∧
    (0 : Int) ≠ 80 := by
  refine ⟨by decide, by decide, by decide⟩

/-- Claim C2 (amended): only the construction-time query falls back to
80x24 on a zero (or failed, reported as zero) size; the per-tick refresh
stores the queried geometry verbatim, zero included. -/
theorem terminal_size_fallback (queriedWidth queriedHeight : Int) (t : Terminal)
    (hdiff : queriedWidth ≠ t.width ∨ queriedHeight ≠ t.height) :
    (NewTerminal queriedWidth queriedHeight).width
        = (if queriedWidth = 0 then 80 else queriedWidth) ∧
    (NewTerminal queriedWidth queriedHeight).height
        = (if queriedHeight = 0 then 24 else queriedHeight) ∧
    (t.UpdateSize queriedWidth queriedHeight).width = queriedWidth ∧
    (t.UpdateSize queriedWidth queriedHeight).height = queriedHeight := by
  have hu : t.UpdateSize queriedWidth queriedHeight =
      { t with width := queriedWidth, height := queriedHeight,
               shouldRender := true, paddingCache := [], newlineCache := [] } := by
    unfold Terminal.UpdateSize
    rw [if_pos hdiff]
  exact ⟨rfl, rfl, by rw [hu], by rw [hu]⟩

/-- Witness for C2 (amended): a zero query at construction yields 80x24,
while a zero query at refresh time stores 0x0. -/
theorem terminal_size_fallback_witness :
    (NewTerminal 0 0).width = 80 ∧ (NewTerminal 0 0).height = 24 ∧
    ((NewTerminal 80 24).UpdateSize 0 0).width = 0 ∧
    ((NewTerminal 80 24).UpdateSize 0 0).height = 0 := by
  have h := terminal_size_fallback 0 0 (NewTerminal 80 24) (by decide)
  simpa using h

/-- Claim C6: a per-tick size check observing a geometry different from the
stored one updates the geometry, leaves both caches empty, sets the
forced-redraw flag, and the next `RenderFrame` call writes even when its
frame index equals the last rendered one. -/
theorem updateSize_change_forces_redraw (t : Terminal)
    (queriedWidth queriedHeight : Int) (a : Animation) (fi : Int)
    (hdiff : queriedWidth ≠ t.width ∨ queriedHeight ≠ t.height) :
    (t.UpdateSize queriedWidth queriedHeight).width = queriedWidth ∧
    (t.UpdateSize queriedWidth queriedHeight).height = queriedHeight ∧
    (t.UpdateSize queriedWidth queriedHeight).paddingCache = [] ∧
    (t.UpdateSize queriedWidth queriedHeight).newlineCache = [] ∧
    (t.UpdateSize queriedWidth queriedHeight).shouldRender = true ∧
    ((t.UpdateSize queriedWidth queriedHeight).RenderFrame a fi).2 ≠ none := by
  have hu : t.UpdateSize queriedWidth queriedHeight =
      { t with width := queriedWidth, height := queriedHeight,
               shouldRender := true, paddingCache := [], newlineCache := [] } := by
    unfold Terminal.UpdateSize
    rw [if_pos hdiff]
  have hs : (t.UpdateSize queriedWidth queriedHeight).shouldRender = true := by
    rw [hu]
  obtain ⟨-, -, -, -, -, -, -, h8⟩ :=
    renderFrame_post (t.UpdateSize queriedWidth queriedHeight) a fi
  exact ⟨by rw [hu], by rw [hu], by rw [hu], by rw [hu], hs, h8 hs⟩

/-- Witness for C6: shrinking an 80x24 terminal to 100x50 forces a write
even at the unchanged frame index -1. -/
theorem updateSize_change_forces_redraw_witness :
    ((NewTerminal 80 24).UpdateSize 100 50).width = 100 ∧
    ((NewTerminal 80 24).UpdateSize 100 50).height = 50 ∧
    ((NewTerminal 80 24).UpdateSize 100 50).paddingCache = [] ∧
    ((NewTerminal 80 24).UpdateSize 100 50).newlineCache = [] ∧
    ((NewTerminal 80 24).UpdateSize 100 50).shouldRender = true ∧
    (((NewTerminal 80 24).UpdateSize 100 50).RenderFrame ⟨[], defaultBlue, 0⟩ (-1)).2 ≠ none :=
  updateSize_change_forces_redraw (NewTerminal 80 24) 100 50 ⟨[], defaultBlue, 0⟩ (-1)
    (by decide)

/-- Counterexample to claim C5 as stated: when the requested frame index
was already the last one rendered and nothing changed, the FIRST call of
the pair is suppressed as well, so the two calls perform zero writes, not
exactly one. -/
theorem renderFrame_pair_can_write_zero :
    (Terminal.RenderFrame ⟨80, 24, false, 0, 0, 1, [], [], []⟩
        ⟨[], defaultBlue, 0⟩ 0).2 = none ∧
    ((Terminal.RenderFrame ⟨80, 24, false, 0, 0, 1, [], [], []⟩
        ⟨[], defaultBlue, 0⟩ 0).1.RenderFrame ⟨[], defaultBlue, 0⟩ 0).2 = none := by
  refine ⟨by decide, by decide⟩

/-- Claim C5 (amended): with the forced-redraw flag clear, two consecutive
`RenderFrame` calls with the same frame index and unchanged geometry
perform exactly one write provided the first call actually renders, i.e.
the requested index differs from the last rendered one; the second call
performs no output and leaves the renderer state unchanged.  (When the
index was already the last rendered one, the first call is suppressed too
and the pair performs zero writes.) -/
theorem renderFrame_second_call_suppressed (t : Terminal) (a : Animation) (fi : Int)
    (_hflag : t.shouldRender = false) (hnew : fi ≠ t.lastFrameIndex) :
    (t.RenderFrame a fi).2 ≠ none ∧
    (t.RenderFrame a fi).1.RenderFrame a fi = ((t.RenderFrame a fi).1, none) := by
  obtain ⟨h1, h2, h3, h4, h5, h6, h7, -⟩ := renderFrame_post t a fi
  have hw : (t.RenderFrame a fi).2 ≠ none := fun hn => hnew (h6 hn).2
  refine ⟨hw, ?_⟩
  apply renderFrame_skips _ a fi h5 (h7 hw)
  · rw [h2]
    exact h3
  · rw [h1]
    exact h4

/-- Witness for C5 (amended): rendering frame 1 after frame 0 writes once;
the repeated call for frame 1 is suppressed and changes nothing. -/
theorem renderFrame_second_call_suppressed_witness :
    (Terminal.RenderFrame ⟨80, 24, false, 0, 0, 1, [], [], []⟩
        ⟨[], defaultBlue, 0⟩ 1).2 ≠ none ∧
    ((Terminal.RenderFrame ⟨80, 24, false, 0, 0, 1, [], [], []⟩
        ⟨[], defaultBlue, 0⟩ 1).1.RenderFrame ⟨[], defaultBlue, 0⟩ 1)
      = ((Terminal.RenderFrame ⟨80, 24, false, 0, 0, 1, [], [], []⟩
          ⟨[], defaultBlue, 0⟩ 1).1, none) :=
  renderFrame_second_call_suppressed ⟨80, 24, false, 0, 0, 1, [], [], []⟩
    ⟨[], defaultBlue, 0⟩ 1 (by decide) (by decide)

/-- Claim C10: for every integer index outside `[0, frameCount)` - negative
or at least the number of frames - `GetFrameLines` returns `[]` (Go `nil`)
instead of indexing out of bounds, so a `RenderFrame` call with any integer
frame index never accesses a frame outside the stored sequence. -/
theorem getFrameLines_out_of_range (a : Animation) (index : Int)
    (h : index < 0 ∨ (a.frames.length : Int) ≤ index) :
    a.GetFrameLines index = [] := by
  unfold Animation.GetFrameLines
  rw [if_pos h]

/-- Witness for C10: a two-frame animation yields no lines at indices -1
and 5. -/
theorem getFrameLines_out_of_range_witness :
    Animation.GetFrameLines ⟨[⟨[['x']]⟩, ⟨[['y']]⟩], defaultBlue, 2⟩ (-1) = [] ∧
    Animation.GetFrameLines ⟨[⟨[['x']]⟩, ⟨[['y']]⟩], defaultBlue, 2⟩ 5 = [] :=
  ⟨getFrameLines_out_of_range _ _ (Or.inl (by decide)),
   getFrameLines_out_of_range _ _ (Or.inr (by decide))⟩

end Gostty
